import Mathlib

/-
  Verification of the streaming-guardrails agent (agentuity/agent-guardrails-stream-example).

  Shallow embedding of the sources:
  - src/agents/guardrail-streamer/redaction.ts      (redactPII, redactConfidential)
  - src/agents/guardrail-streamer/pii-detection.ts  (detectPII adapter, fail-open)
  - confidential-detection.ts                        (detectConfidential adapter, fail-open)
  - the three GuardrailStreamer driver variants (two incremental-emission drivers with
    threshold-only flushing, one full-buffer-write driver with the size-or-sentence policy).

  Text is modelled as List Char.  JavaScript string operations are embedded with their
  exact semantics: String.prototype.replaceAll with a non-empty search string scans left
  to right replacing non-overlapping occurrences without rescanning replacements, and
  with an empty search string it inserts the replacement at every position including the
  end.  String.prototype.slice(-n) keeps the last n characters.  Array.prototype.sort
  with the comparator (a, b) => b.value.length - a.value.length is a stable descending
  sort by value length.  Channel writes are modelled as append-only lists; audit lines
  are modelled structurally (their numeric payloads kept, the per-kind listing of the
  "Found ..." line abstracted to the item count, which no claim depends on).
-/

set_option maxRecDepth 16384

namespace Guardrails

/-- Categories of personally identifiable information recognised by the PII detector
(pii-detection.ts, PiiItemSchema). -/
inductive PiiType where
  | email
  | phone
  | ssn
  | creditCard
deriving DecidableEq

/-- A detected PII span: category plus the verbatim substring believed sensitive. -/
structure PiiItem where
  type : PiiType
  value : List Char
deriving DecidableEq

/-- Categories of confidential business information recognised by the confidential
detector (confidential-detection.ts, ConfidentialItemSchema). -/
inductive ConfType where
  | financial
  | product
  | rnd
  | contact
  | strategy
deriving DecidableEq

/-- A detected confidential span: category plus the verbatim substring. -/
structure ConfidentialItem where
  type : ConfType
  value : List Char
deriving DecidableEq

/-- Redaction marker for a PII category.  redaction.ts builds
"[REDACTED:" + type.toUpperCase() + "]" (so credit_card becomes CREDIT_CARD). -/
def piiMarker : PiiType → List Char
  | PiiType.email => "[REDACTED:EMAIL]".toList
  | PiiType.phone => "[REDACTED:PHONE]".toList
  | PiiType.ssn => "[REDACTED:SSN]".toList
  | PiiType.creditCard => "[REDACTED:CREDIT_CARD]".toList

/-- Redaction marker for a confidential category (redaction.ts, REDACTION_MARKERS). -/
def confMarker : ConfType → List Char
  | ConfType.financial => "[REDACTED:FINANCIAL]".toList
  | ConfType.product => "[REDACTED:PRODUCT]".toList
  | ConfType.rnd => "[REDACTED:RND]".toList
  | ConfType.contact => "[REDACTED:CONTACT]".toList
  | ConfType.strategy => "[REDACTED:STRATEGY]".toList

/-- JavaScript replaceAll with the empty search string: the replacement is inserted at
every position of the subject, including before the first character and after the last
("ab".replaceAll("", "X") is "XaXbX"). -/
def intersperseMarker (m : List Char) : List Char → List Char
  | [] => m
  | c :: rest => m ++ c :: intersperseMarker m rest

/-- Core scan of JavaScript replaceAll for a (non-empty) search string v: walk the
subject left to right; where v is a prefix, emit the replacement m and resume after the
matched occurrence; otherwise copy one character.  Replacements are never rescanned.
The fuel argument is one more than the subject length at the top-level call; every
recursive call consumes at least one subject character, so fuel never runs out (the
fuel-exhausted branch returns the remaining subject unchanged and is unreachable). -/
def raFuel (v m : List Char) : Nat → List Char → List Char
  | 0, t => t
  | _ + 1, [] => []
  | fuel + 1, c :: rest =>
    if v.isPrefixOf (c :: rest) then
      m ++ raFuel v m fuel (rest.drop (v.length - 1))
    else
      c :: raFuel v m fuel rest

/-- JavaScript String.prototype.replaceAll (and equivalently a global regex replace with
an escaped-to-literal pattern, as in redactConfidential): subject t, search string v,
replacement m. -/
def jsReplaceAll (t v m : List Char) : List Char :=
  match v with
  | [] => intersperseMarker m t
  | _ :: _ => raFuel v m (t.length + 1) t

/-- Substring occurrence test: v occurs somewhere in t (the empty list occurs in
everything). -/
def occursIn (v : List Char) : List Char → Bool
  | [] => v.isPrefixOf ([] : List Char)
  | c :: rest => v.isPrefixOf (c :: rest) || occursIn v rest

/-- redactPII from redaction.ts: fold the items in detector-returned order, replacing
every occurrence of each value with its marker via replaceAll.  The early return on an
empty item list coincides with the fold over the empty list.  No sorting and no
empty-value skip appear in the source. -/
def redactPII (text : List Char) (piiItems : List PiiItem) : List Char :=
  piiItems.foldl (fun acc it => jsReplaceAll acc it.value (piiMarker it.type)) text

/-- Stable insertion into a list sorted by descending value length: the inserted
element precedes elements of equal length that came later in the original order,
matching the stable JavaScript Array.prototype.sort. -/
def insertDesc (x : ConfidentialItem) : List ConfidentialItem → List ConfidentialItem
  | [] => [x]
  | y :: ys =>
    if y.value.length ≤ x.value.length then x :: y :: ys
    else y :: insertDesc x ys

/-- Stable sort by descending value length, as performed by
[...items].sort((a, b) => b.value.length - a.value.length) in redactConfidential. -/
def sortByValueLenDesc (items : List ConfidentialItem) : List ConfidentialItem :=
  items.foldr insertDesc []

/-- redactConfidential from redaction.ts: sort the items by descending value length,
then fold, skipping empty values, replacing every occurrence of each value with its
category marker (the regex path escapes the value first, so matching is literal). -/
def redactConfidential (text : List Char) (items : List ConfidentialItem) : List Char :=
  (sortByValueLenDesc items).foldl
    (fun acc it =>
      if it.value = [] then acc
      else jsReplaceAll acc it.value (confMarker it.type))
    text

/-- Fail-open PII detector adapter (pii-detection.ts, detectPII): the underlying
model call is abstracted as an oracle that either succeeds with a span list or throws;
the catch branch logs and returns the empty list. -/
def detectPII (oracle : List Char → Except Unit (List PiiItem)) (text : List Char) :
    List PiiItem :=
  match oracle text with
  | Except.ok items => items
  | Except.error _ => []

/-- Whitespace as recognised by JavaScript (the characters relevant to this codebase;
the full \s class also includes rarer Unicode space characters). -/
def isJsWhitespace (c : Char) : Bool :=
  c = ' ' || c = '\t' || c = '\n' || c = '\r' ||
  c = '\x0b' || c = '\x0c' || c = ' '

/-- Fail-open confidential detector adapter (confidential-detection.ts,
detectConfidential): empty or whitespace-only text short-circuits to no spans without
consulting the oracle; an oracle failure is caught and mapped to no spans. -/
def detectConfidential (oracle : List Char → Except Unit (List ConfidentialItem))
    (text : List Char) : List ConfidentialItem :=
  if text.all isJsWhitespace then []
  else
    match oracle text with
    | Except.ok items => items
    | Except.error _ => []

/-- Audit-channel lines written by the drivers, modelled structurally.  The checking,
finalCheck and emitted lines carry their character counts; the found line carries the
item count (the source also lists the item kinds, which no claim depends on). -/
inductive AuditLine where
  | starting
  | checking (n : Nat)
  | found (count : Nat)
  | noneFound
  | emitted (n : Nat)
  | finalCheck (n : Nat)
  | complete
deriving DecidableEq

/-- State of one sanitization session: the two mutable string variables of the driver
plus the two append-only output channels (each write recorded in order). -/
structure DriverState where
  pendingBuffer : List Char
  carryTail : List Char
  mainOut : List (List Char)
  auditOut : List AuditLine
deriving DecidableEq

/-- Initial state after the opening audit write of every driver variant. -/
def initState : DriverState :=
  ⟨[], [], [], [AuditLine.starting]⟩

/-- JavaScript slice(-n): the last n characters (the whole list when shorter). -/
def takeLast (n : Nat) (l : List Char) : List Char :=
  l.drop (l.length - n)

/-- Sanitized text computed by every validateAndFlush variant: prepend the carry tail,
detect, and redact only when at least one item was found (otherwise the text passes
through untouched). -/
def sanitizedOf {ι : Type} (detect : List Char → List ι)
    (rf : List Char → List ι → List Char) (carry buffer : List Char) : List Char :=
  let textToCheck := carry ++ buffer
  let items := detect textToCheck
  if 0 < items.length then rf textToCheck items else textToCheck

/-- Audit line reporting the detection outcome: a found line when items were detected,
the none-found line otherwise. -/
def foundLineOf {ι : Type} (items : List ι) : AuditLine :=
  if 0 < items.length then AuditLine.found items.length else AuditLine.noneFound

/-- validateAndFlush of the two incremental-emission drivers (part_000, both variants):
write the checking line, detect, redact, write the found or none-found line, emit only
the part of the sanitized text beyond the original carry-tail length (writing the main
chunk and the emitted line only when that suffix is non-empty, as the JavaScript
truthiness test on toEmit does), and keep the last N sanitized characters as the new
carry tail.  The pendingBuffer field is not touched here. -/
def validateAndFlush {ι : Type} (N : Nat) (detect : List Char → List ι)
    (rf : List Char → List ι → List Char) (st : DriverState) (buffer : List Char) :
    DriverState :=
  let textToCheck := st.carryTail ++ buffer
  let items := detect textToCheck
  let sanitized := sanitizedOf detect rf st.carryTail buffer
  let audit2 := st.auditOut ++ [AuditLine.checking textToCheck.length, foundLineOf items]
  let toEmit := sanitized.drop st.carryTail.length
  if toEmit = [] then
    { st with auditOut := audit2, carryTail := takeLast N sanitized }
  else
    { st with
        mainOut := st.mainOut ++ [toEmit],
        auditOut := audit2 ++ [AuditLine.emitted toEmit.length],
        carryTail := takeLast N sanitized }

/-- Streaming-loop step of the incremental drivers: append the delta to the pending
buffer; when the buffer reaches the size threshold, validate-and-flush it and reset the
buffer to empty. -/
def streamStep {ι : Type} (N thr : Nat) (detect : List Char → List ι)
    (rf : List Char → List ι → List Char) (st : DriverState) (delta : List Char) :
    DriverState :=
  let buf := st.pendingBuffer ++ delta
  if thr ≤ buf.length then
    { validateAndFlush N detect rf { st with pendingBuffer := buf } buf with
        pendingBuffer := [] }
  else
    { st with pendingBuffer := buf }

/-- Streaming loop of the incremental drivers over a whole delta sequence. -/
def runIncr {ι : Type} (N thr : Nat) (detect : List Char → List ι)
    (rf : List Char → List ι → List Char) (deltas : List (List Char)) : DriverState :=
  deltas.foldl (streamStep N thr detect rf) initState

/-- Full session of the incremental drivers: streaming loop, then the draining flush of
a non-empty remaining buffer (preceded by the final-check audit line; the source does
not reset pendingBuffer after this final flush), then the completion audit line. -/
def runIncrSession {ι : Type} (N thr : Nat) (detect : List Char → List ι)
    (rf : List Char → List ι → List Char) (deltas : List (List Char)) : DriverState :=
  let st := runIncr N thr detect rf deltas
  let st2 :=
    if st.pendingBuffer = [] then st
    else
      validateAndFlush N detect rf
        { st with
            auditOut := st.auditOut ++ [AuditLine.finalCheck st.pendingBuffer.length] }
        st.pendingBuffer
  { st2 with auditOut := st2.auditOut ++ [AuditLine.complete] }

/-- Session of the PII incremental driver (part_000, second variant):
CARRY_TAIL_LENGTH 64, CHAR_THRESHOLD 200, Groq-backed fail-open PII detection,
redactPII. -/
def piiSession (oracle : List Char → Except Unit (List PiiItem))
    (deltas : List (List Char)) : DriverState :=
  runIncrSession 64 200 (detectPII oracle) redactPII deltas

/-- Session of the confidential incremental driver (part_000, first variant):
CARRY_TAIL_LENGTH 64, CHAR_THRESHOLD 200, fail-open confidential detection,
redactConfidential. -/
def confSession (oracle : List Char → Except Unit (List ConfidentialItem))
    (deltas : List (List Char)) : DriverState :=
  runIncrSession 64 200 (detectConfidential oracle) redactConfidential deltas

/-- End-of-sentence punctuation of the SENTENCE_END regex. -/
def isEos (c : Char) : Bool :=
  c = '.' || c = '!' || c = '?'

/-- SENTENCE_END.exec(buffer) of the part_001 driver: index of the first occurrence of
an end-of-sentence character immediately followed by whitespace, if any. -/
def execSentenceEnd : List Char → Option Nat
  | [] => none
  | [_] => none
  | a :: b :: rest =>
    if isEos a && isJsWhitespace b then some 0
    else (execSentenceEnd (b :: rest)).map (· + 1)

/-- validateAndFlush of the part_001 driver: same checking, detection, redaction and
audit lines as the incremental variant, but the entire sanitized text (overlap
included) is written to the main channel, and no emitted line is produced. -/
def validateAndFlushFull {ι : Type} (N : Nat) (detect : List Char → List ι)
    (rf : List Char → List ι → List Char) (st : DriverState) (buffer : List Char) :
    DriverState :=
  let textToCheck := st.carryTail ++ buffer
  let items := detect textToCheck
  let sanitized := sanitizedOf detect rf st.carryTail buffer
  { st with
      mainOut := st.mainOut ++ [sanitized],
      auditOut := st.auditOut ++ [AuditLine.checking textToCheck.length, foundLineOf items],
      carryTail := takeLast N sanitized }

/-- Streaming-loop step of the part_001 driver: append the delta; flush when the buffer
reaches CHAR_THRESHOLD 200 characters, or when SENTENCE_END matches somewhere in the
whole buffer and the buffer has at least MIN_SENTENCE_CHARS 80 characters; reset the
buffer to empty after a flush.  CARRY_TAIL_LENGTH is 32. -/
def part001Step {ι : Type} (detect : List Char → List ι)
    (rf : List Char → List ι → List Char) (st : DriverState) (delta : List Char) :
    DriverState :=
  let buf := st.pendingBuffer ++ delta
  if decide (200 ≤ buf.length)
      || ((execSentenceEnd buf).isSome && decide (80 ≤ buf.length)) then
    { validateAndFlushFull 32 detect rf { st with pendingBuffer := buf } buf with
        pendingBuffer := [] }
  else
    { st with pendingBuffer := buf }

/-- Streaming loop of the part_001 driver. -/
def part001Run {ι : Type} (detect : List Char → List ι)
    (rf : List Char → List ι → List Char) (deltas : List (List Char)) : DriverState :=
  deltas.foldl (part001Step detect rf) initState

/-- Full session of the part_001 driver: streaming loop, draining flush of a non-empty
remaining buffer, completion line. -/
def part001Session {ι : Type} (detect : List Char → List ι)
    (rf : List Char → List ι → List Char) (deltas : List (List Char)) : DriverState :=
  let st := part001Run detect rf deltas
  let st2 :=
    if st.pendingBuffer = [] then st
    else
      validateAndFlushFull 32 detect rf
        { st with
            auditOut := st.auditOut ++ [AuditLine.finalCheck st.pendingBuffer.length] }
        st.pendingBuffer
  { st2 with auditOut := st2.auditOut ++ [AuditLine.complete] }

/-- Audit channel makes no found claim: no found line occurs among the written lines. -/
def noFoundClaim (lines : List AuditLine) : Bool :=
  lines.all fun l =>
    match l with
    | AuditLine.found _ => false
    | _ => true

/-- Sentence-terminator containment written from the claim and spec wording: an
end-of-sentence punctuation character immediately followed by a whitespace character
occurs somewhere in the buffer. -/
def hasSentenceTerminator : List Char → Bool
  | [] => false
  | [_] => false
  | a :: b :: rest => (isEos a && isJsWhitespace b) || hasSentenceTerminator (b :: rest)

/-- Size-or-sentence flush policy written from the claim wording, to be compared with
the part_001 driver condition: flush when the buffer has at least 200 characters, or at
least 80 characters and a sentence terminator anywhere in the whole buffer. -/
def flushPolicySpec (buf : List Char) : Bool :=
  decide (200 ≤ buf.length) || (decide (80 ≤ buf.length) && hasSentenceTerminator buf)

/-- Concatenation of all writes made to the main channel, in order. -/
def mainFlat (st : DriverState) : List Char :=
  st.mainOut.flatten

/-- Outcome of one error-path cleanup attempt: which channel closes were attempted and
whether an exception escaped the catch block. -/
structure CleanupResult where
  mainCloseAttempted : Bool
  auditCloseAttempted : Bool
  errorPropagated : Bool
deriving DecidableEq

/-- Error-path cleanup of the confidential driver variant (part_000, first catch
block): both closes are awaited sequentially with no try/catch wrapper, so a failing
main-channel close skips the audit-channel close and the failure propagates. -/
def confidentialCatchCleanup (mainClose auditClose : Except Unit Unit) : CleanupResult :=
  match mainClose with
  | Except.error _ => ⟨true, false, true⟩
  | Except.ok _ =>
    match auditClose with
    | Except.error _ => ⟨true, true, true⟩
    | Except.ok _ => ⟨true, true, false⟩

/-- Error-path cleanup of the PII driver variants (part_000 second catch block and
part_001): an unwrapped audit write, then each channel close inside its own try/catch
with any close failure swallowed. -/
def piiCatchCleanup (auditWrite _mainClose _auditClose : Except Unit Unit) :
    CleanupResult :=
  match auditWrite with
  | Except.error _ => ⟨false, false, true⟩
  | Except.ok _ => ⟨true, true, false⟩

/-- Oracle that always throws, modelling a Detector whose every call fails. -/
def failingPiiOracle : List Char → Except Unit (List PiiItem) :=
  fun _ => Except.error ()

/-- Oracle that always throws, confidential flavour. -/
def failingConfOracle : List Char → Except Unit (List ConfidentialItem) :=
  fun _ => Except.error ()

/-- Detector stub that never reports a span. -/
def noSpanDetector : List Char → List PiiItem :=
  fun _ => []

/-- Detector stub reporting one 31-character span, used to exercise a flush whose
sanitized result is shorter than the carry tail. -/
def shrinkDetector : List Char → List PiiItem :=
  fun _ => [⟨PiiType.email, List.replicate 31 'a'⟩]

/-- Driver state with a 30-character carry tail and empty channels. -/
def shrinkState : DriverState :=
  ⟨[], List.replicate 30 'a', [], []⟩

theorem drop_len_append (a b : List Char) : (a ++ b).drop a.length = b := by
  induction a with
  | nil => rfl
  | cons x xs ih => simp [ih]

theorem takeLast_length_le (n : Nat) (l : List Char) : (takeLast n l).length ≤ n := by
  simp only [takeLast, List.length_drop]
  omega

theorem occursIn_nil (t : List Char) : occursIn [] t = true := by
  cases t <;> rfl

theorem raFuel_id_of_not_occurs (v m : List Char) :
    ∀ (fuel : Nat) (t : List Char), occursIn v t = false → raFuel v m fuel t = t := by
  intro fuel
  induction fuel with
  | zero => intro t _; rfl
  | succ k ih =>
    intro t h
    cases t with
    | nil => rfl
    | cons c rest =>
      have h2 : (v.isPrefixOf (c :: rest) || occursIn v rest) = false := h
      rw [Bool.or_eq_false_iff] at h2
      simp only [raFuel, h2.1, Bool.false_eq_true, if_false]
      rw [ih rest h2.2]

theorem jsReplaceAll_id_of_not_occurs (t v m : List Char) (h : occursIn v t = false) :
    jsReplaceAll t v m = t := by
  cases v with
  | nil => rw [occursIn_nil] at h; cases h
  | cons vh vt => exact raFuel_id_of_not_occurs (vh :: vt) m (t.length + 1) t h

theorem redactPII_id_of_not_occurs (t : List Char) (items : List PiiItem)
    (h : ∀ it ∈ items, occursIn it.value t = false) : redactPII t items = t := by
  induction items with
  | nil => rfl
  | cons x xs ih =>
    show List.foldl _ (jsReplaceAll t x.value (piiMarker x.type)) xs = t
    rw [jsReplaceAll_id_of_not_occurs t x.value _ (h x (List.mem_cons_self x xs))]
    exact ih fun it hit => h it (List.mem_cons_of_mem x hit)

theorem mem_insertDesc {a x : ConfidentialItem} :
    ∀ {l : List ConfidentialItem}, a ∈ insertDesc x l → a = x ∨ a ∈ l := by
  intro l
  induction l with
  | nil =>
    intro h
    simp only [insertDesc, List.mem_singleton] at h
    exact Or.inl h
  | cons y ys ih =>
    intro h
    simp only [insertDesc] at h
    by_cases hc : y.value.length ≤ x.value.length
    · rw [if_pos hc] at h
      rcases List.mem_cons.mp h with h1 | h1
      · exact Or.inl h1
      · exact Or.inr h1
    · rw [if_neg hc] at h
      rcases List.mem_cons.mp h with h1 | h1
      · exact Or.inr (List.mem_cons.mpr (Or.inl h1))
      · rcases ih h1 with h2 | h2
        · exact Or.inl h2
        · exact Or.inr (List.mem_cons.mpr (Or.inr h2))

theorem mem_sortByValueLenDesc {a : ConfidentialItem} :
    ∀ {items : List ConfidentialItem}, a ∈ sortByValueLenDesc items → a ∈ items := by
  intro items
  induction items with
  | nil => intro h; exact absurd h (List.not_mem_nil a)
  | cons x xs ih =>
    intro h
    have h2 : a ∈ insertDesc x (sortByValueLenDesc xs) := h
    rcases mem_insertDesc h2 with h3 | h3
    · exact List.mem_cons.mpr (Or.inl h3)
    · exact List.mem_cons.mpr (Or.inr (ih h3))

theorem confFold_id (t : List Char) :
    ∀ (l : List ConfidentialItem),
      (∀ it ∈ l, it.value ≠ [] → occursIn it.value t = false) →
      l.foldl
        (fun acc it =>
          if it.value = [] then acc
          else jsReplaceAll acc it.value (confMarker it.type)) t = t := by
  intro l
  induction l with
  | nil => intro _; rfl
  | cons x xs ih =>
    intro h
    rw [List.foldl_cons]
    have hx : (if x.value = [] then t else jsReplaceAll t x.value (confMarker x.type)) = t := by
      by_cases hv : x.value = []
      · rw [if_pos hv]
      · rw [if_neg hv]
        exact jsReplaceAll_id_of_not_occurs t x.value _ (h x (List.mem_cons_self x xs) hv)
    rw [hx]
    exact ih fun it hit hv => h it (List.mem_cons_of_mem x hit) hv

theorem redactConfidential_id_of_not_occurs (t : List Char) (items : List ConfidentialItem)
    (h : ∀ it ∈ items, it.value ≠ [] → occursIn it.value t = false) :
    redactConfidential t items = t :=
  confFold_id t (sortByValueLenDesc items)
    fun it hit hv => h it (mem_sortByValueLenDesc hit) hv

theorem execSentenceEnd_isSome :
    ∀ l : List Char, (execSentenceEnd l).isSome = hasSentenceTerminator l := by
  intro l
  induction l with
  | nil => rfl
  | cons a rest ih =>
    cases rest with
    | nil => rfl
    | cons b r =>
      by_cases hab : (isEos a && isJsWhitespace b) = true
      · simp [execSentenceEnd, hasSentenceTerminator, hab]
      · rw [Bool.not_eq_true] at hab
        simp only [execSentenceEnd, hasSentenceTerminator, hab, Bool.false_eq_true,
          if_false, Bool.false_or]
        rw [← ih]
        cases execSentenceEnd (b :: r) <;> rfl

theorem part001_policy_eq (buf : List Char) :
    (decide (200 ≤ buf.length)
        || ((execSentenceEnd buf).isSome && decide (80 ≤ buf.length)))
      = flushPolicySpec buf := by
  rw [flushPolicySpec, execSentenceEnd_isSome, Bool.and_comm]

theorem foldl_pres {σ α : Type} (f : σ → α → σ) (P : σ → Prop)
    (hf : ∀ s a, P s → P (f s a)) : ∀ (l : List α) (s : σ), P s → P (l.foldl f s) := by
  intro l
  induction l with
  | nil => intro s hs; exact hs
  | cons x xs ih => intro s hs; exact ih (f s x) (hf s x hs)

theorem validateAndFlush_carry_le {ι : Type} (N : Nat) (det : List Char → List ι)
    (rf : List Char → List ι → List Char) (st : DriverState) (buffer : List Char) :
    (validateAndFlush N det rf st buffer).carryTail.length ≤ N := by
  simp only [validateAndFlush]
  split <;> exact takeLast_length_le N _

theorem validateAndFlushFull_carry_le {ι : Type} (N : Nat) (det : List Char → List ι)
    (rf : List Char → List ι → List Char) (st : DriverState) (buffer : List Char) :
    (validateAndFlushFull N det rf st buffer).carryTail.length ≤ N :=
  takeLast_length_le N _

theorem streamStep_carry_le {ι : Type} (N thr : Nat) (det : List Char → List ι)
    (rf : List Char → List ι → List Char) (st : DriverState) (d : List Char)
    (h : st.carryTail.length ≤ N) :
    (streamStep N thr det rf st d).carryTail.length ≤ N := by
  simp only [streamStep]
  split
  · exact validateAndFlush_carry_le N det rf _ _
  · exact h

theorem part001Step_carry_le {ι : Type} (det : List Char → List ι)
    (rf : List Char → List ι → List Char) (st : DriverState) (d : List Char)
    (h : st.carryTail.length ≤ 32) :
    (part001Step det rf st d).carryTail.length ≤ 32 := by
  simp only [part001Step]
  split
  · exact validateAndFlushFull_carry_le 32 det rf _ _
  · exact h

theorem runIncr_carry_le {ι : Type} (N thr : Nat) (det : List Char → List ι)
    (rf : List Char → List ι → List Char) (deltas : List (List Char)) :
    (runIncr N thr det rf deltas).carryTail.length ≤ N :=
  foldl_pres (streamStep N thr det rf) (fun s => s.carryTail.length ≤ N)
    (fun s a hs => streamStep_carry_le N thr det rf s a hs) deltas initState
    (Nat.zero_le N)

theorem runIncrSession_carry_le {ι : Type} (N thr : Nat) (det : List Char → List ι)
    (rf : List Char → List ι → List Char) (deltas : List (List Char)) :
    (runIncrSession N thr det rf deltas).carryTail.length ≤ N := by
  simp only [runIncrSession]
  split
  · exact runIncr_carry_le N thr det rf deltas
  · exact validateAndFlush_carry_le N det rf _ _

theorem part001Run_carry_le {ι : Type} (det : List Char → List ι)
    (rf : List Char → List ι → List Char) (deltas : List (List Char)) :
    (part001Run det rf deltas).carryTail.length ≤ 32 :=
  foldl_pres (part001Step det rf) (fun s => s.carryTail.length ≤ 32)
    (fun s a hs => part001Step_carry_le det rf s a hs) deltas initState
    (Nat.zero_le 32)

theorem part001Session_carry_le {ι : Type} (det : List Char → List ι)
    (rf : List Char → List ι → List Char) (deltas : List (List Char)) :
    (part001Session det rf deltas).carryTail.length ≤ 32 := by
  simp only [part001Session]
  split
  · exact part001Run_carry_le det rf deltas
  · exact validateAndFlushFull_carry_le 32 det rf _ _

theorem sanitizedOf_detect_nil {ι : Type} (det : List Char → List ι)
    (rf : List Char → List ι → List Char) (carry buffer : List Char)
    (h : det (carry ++ buffer) = []) : sanitizedOf det rf carry buffer = carry ++ buffer := by
  simp [sanitizedOf, h]

theorem validateAndFlush_detect_nil {ι : Type} (N : Nat) (det : List Char → List ι)
    (rf : List Char → List ι → List Char) (st : DriverState) (buffer : List Char)
    (h : det (st.carryTail ++ buffer) = []) :
    (validateAndFlush N det rf st buffer).mainOut
        = st.mainOut ++ (if buffer = [] then [] else [buffer]) ∧
    (validateAndFlush N det rf st buffer).pendingBuffer = st.pendingBuffer ∧
    (validateAndFlush N det rf st buffer).auditOut
        = st.auditOut
            ++ [AuditLine.checking (st.carryTail ++ buffer).length, AuditLine.noneFound]
            ++ (if buffer = [] then [] else [AuditLine.emitted buffer.length]) := by
  have hs := sanitizedOf_detect_nil det rf st.carryTail buffer h
  simp only [validateAndFlush, hs, h, foundLineOf, List.length_nil, Nat.lt_irrefl,
    if_false, drop_len_append]
  by_cases hb : buffer = []
  · simp [hb]
  · simp [hb]

theorem streamStep_detect_nil {ι : Type} (N thr : Nat) (det : List Char → List ι)
    (rf : List Char → List ι → List Char) (hdet : ∀ t, det t = [])
    (st : DriverState) (d : List Char) :
    mainFlat (streamStep N thr det rf st d) ++ (streamStep N thr det rf st d).pendingBuffer
        = mainFlat st ++ st.pendingBuffer ++ d ∧
    (noFoundClaim st.auditOut = true →
      noFoundClaim (streamStep N thr det rf st d).auditOut = true) := by
  simp only [streamStep]
  by_cases hthr : thr ≤ (st.pendingBuffer ++ d).length
  · rw [if_pos hthr]
    have hf := validateAndFlush_detect_nil N det rf
      { st with pendingBuffer := st.pendingBuffer ++ d } (st.pendingBuffer ++ d) (hdet _)
    constructor
    · show mainFlat (validateAndFlush N det rf _ _) ++ ([] : List Char) = _
      rw [List.append_nil, mainFlat, hf.1]
      by_cases hb : st.pendingBuffer ++ d = []
      · simp [hb, mainFlat]
      · simp [hb, mainFlat, List.append_assoc]
    · intro hnf
      show noFoundClaim (validateAndFlush N det rf _ _).auditOut = true
      rw [hf.2.2]
      by_cases hb : st.pendingBuffer ++ d = [] <;>
        simp [hb, noFoundClaim, List.all_append] <;>
        simpa [noFoundClaim] using hnf
  · rw [if_neg hthr]
    exact ⟨by simp [mainFlat, List.append_assoc], fun hnf => hnf⟩

theorem runIncr_detect_nil {ι : Type} (N thr : Nat) (det : List Char → List ι)
    (rf : List Char → List ι → List Char) (hdet : ∀ t, det t = []) :
    ∀ (deltas : List (List Char)) (st : DriverState),
      mainFlat (deltas.foldl (streamStep N thr det rf) st)
          ++ (deltas.foldl (streamStep N thr det rf) st).pendingBuffer
        = mainFlat st ++ st.pendingBuffer ++ deltas.flatten ∧
      (noFoundClaim st.auditOut = true →
        noFoundClaim (deltas.foldl (streamStep N thr det rf) st).auditOut = true) := by
  intro deltas
  induction deltas with
  | nil => intro st; simp
  | cons d ds ih =>
    intro st
    rw [List.foldl_cons]
    have hstep := streamStep_detect_nil N thr det rf hdet st d
    have hih := ih (streamStep N thr det rf st d)
    refine ⟨?_, fun hnf => hih.2 (hstep.2 hnf)⟩
    rw [hih.1, hstep.1]
    simp [List.append_assoc]

theorem runIncrSession_detect_nil {ι : Type} (N thr : Nat) (det : List Char → List ι)
    (rf : List Char → List ι → List Char) (hdet : ∀ t, det t = [])
    (deltas : List (List Char)) :
    mainFlat (runIncrSession N thr det rf deltas) = deltas.flatten ∧
    noFoundClaim (runIncrSession N thr det rf deltas).auditOut = true ∧
    (runIncrSession N thr det rf deltas).auditOut.getLast? = some AuditLine.complete := by
  have hrun := runIncr_detect_nil N thr det rf hdet deltas initState
  have hrun1 : mainFlat (runIncr N thr det rf deltas)
      ++ (runIncr N thr det rf deltas).pendingBuffer = deltas.flatten := by
    simpa [mainFlat, initState] using hrun.1
  have hrun2 : noFoundClaim (runIncr N thr det rf deltas).auditOut = true :=
    hrun.2 (by simp [initState, noFoundClaim])
  simp only [runIncrSession]
  by_cases hp : (runIncr N thr det rf deltas).pendingBuffer = []
  · rw [if_pos hp]
    refine ⟨?_, ?_, ?_⟩
    · rw [mainFlat] at hrun1 ⊢
      simpa [hp] using hrun1
    · simpa [noFoundClaim, List.all_append] using hrun2
    · exact List.getLast?_append_of_ne_nil _ (by simp)
  · rw [if_neg hp]
    have hf := validateAndFlush_detect_nil N det rf
      { runIncr N thr det rf deltas with
          auditOut := (runIncr N thr det rf deltas).auditOut
            ++ [AuditLine.finalCheck (runIncr N thr det rf deltas).pendingBuffer.length] }
      (runIncr N thr det rf deltas).pendingBuffer (hdet _)
    refine ⟨?_, ?_, ?_⟩
    · rw [mainFlat, hf.1]
      simp only [hp, if_false]
      rw [← hrun1]
      simp [mainFlat]
    · rw [hf.2.2]
      simp [hp, noFoundClaim, List.all_append]
      simpa [noFoundClaim] using hrun2
    · exact List.getLast?_append_of_ne_nil _ (by simp)

/-- C1: the claim that every flush emits only the portion of the sanitized result
beyond the original carryTail length fails on the part_001 driver, which writes the
entire sanitized buffer (overlap included) on every flush.  With two 200-character
deltas and a detector that finds nothing, the second flush re-emits the 32-character
carry tail: the main channel carries 432 characters although the fully sanitized text
has only 400, so the overlap characters are emitted twice. -/
theorem c1_part001_overlap_reemission :
    (part001Session (detectPII failingPiiOracle) redactPII
        [List.replicate 200 'a', List.replicate 200 'a']).mainOut.flatten
      = List.replicate 432 'a' ∧
    ([List.replicate 200 'a', List.replicate 200 'a'] : List (List Char)).flatten
      = List.replicate 400 'a' ∧
    (List.replicate 432 'a' : List Char) ≠ List.replicate 400 'a' := by
  decide

/-- C3 (counterexample): redaction is not idempotent for every text and span list.
When a span value occurs inside the redaction markers themselves, a second run of
redact with the same spans rewrites the markers: redactPII with value "E" and
redactConfidential with value "A" both change their own output on a second pass. -/
theorem c3_idempotence_counterexample :
    redactPII (redactPII "E".toList [⟨PiiType.email, "E".toList⟩])
        [⟨PiiType.email, "E".toList⟩]
      ≠ redactPII "E".toList [⟨PiiType.email, "E".toList⟩] ∧
    redactConfidential (redactConfidential "A".toList [⟨ConfType.financial, "A".toList⟩])
        [⟨ConfType.financial, "A".toList⟩]
      ≠ redactConfidential "A".toList [⟨ConfType.financial, "A".toList⟩] := by
  decide

/-- C3 (amended): redaction is idempotent given a fixed span set provided no span value
still occurs in the once-redacted text — in particular whenever the redacted output no
longer contains the original sensitive values, as the spec argues.  For redactPII the
non-occurrence condition also rules out empty values (an empty string occurs in every
text); redactConfidential skips empty values itself. -/
theorem c3_redaction_idempotent_amended (T : List Char) (Sp : List PiiItem)
    (Sc : List ConfidentialItem)
    (hp : ∀ it ∈ Sp, occursIn it.value (redactPII T Sp) = false)
    (hc : ∀ it ∈ Sc, it.value ≠ [] → occursIn it.value (redactConfidential T Sc) = false) :
    redactPII (redactPII T Sp) Sp = redactPII T Sp ∧
    redactConfidential (redactConfidential T Sc) Sc = redactConfidential T Sc :=
  ⟨redactPII_id_of_not_occurs _ Sp hp, redactConfidential_id_of_not_occurs _ Sc hc⟩

/-- C3 (witness): the amended idempotence theorem applied at concrete inputs whose
values are absent from the redacted outputs. -/
theorem c3_redaction_idempotent_amended_witness :
    redactPII (redactPII "ab".toList [⟨PiiType.email, "a".toList⟩])
        [⟨PiiType.email, "a".toList⟩]
      = redactPII "ab".toList [⟨PiiType.email, "a".toList⟩] ∧
    redactConfidential (redactConfidential "ab".toList [⟨ConfType.financial, "b".toList⟩])
        [⟨ConfType.financial, "b".toList⟩]
      = redactConfidential "ab".toList [⟨ConfType.financial, "b".toList⟩] :=
  c3_redaction_idempotent_amended "ab".toList [⟨PiiType.email, "a".toList⟩]
    [⟨ConfType.financial, "b".toList⟩] (by decide) (by decide)

/-- C4: redactPII does not process spans longest-value-first; it replaces in
detector-returned order.  With the shorter value listed first, the shorter span is
replaced inside the longer one and the longer span's value never matches, leaving a
partially-redacted mixture, while redactConfidential (which sorts by descending value
length) makes the longer span's marker win at that position. -/
theorem c4_ordering_eval :
    redactPII "call 555-1234 ext 2".toList
        [⟨PiiType.phone, "555-1234".toList⟩, ⟨PiiType.phone, "555-1234 ext 2".toList⟩]
      = "call [REDACTED:PHONE] ext 2".toList ∧
    redactConfidential "call 555-1234 ext 2".toList
        [⟨ConfType.contact, "555-1234".toList⟩, ⟨ConfType.contact, "555-1234 ext 2".toList⟩]
      = "call [REDACTED:CONTACT]".toList := by
  decide

/-- C5: a span with an empty value is not skipped by redactPII.  JavaScript
replaceAll with the empty search string inserts the marker at every position, so the
empty-value span acts as a wildcard; redactConfidential does skip empty values. -/
theorem c5_empty_value_eval :
    redactPII "ab".toList [⟨PiiType.email, []⟩]
      = "[REDACTED:EMAIL]a[REDACTED:EMAIL]b[REDACTED:EMAIL]".toList ∧
    redactConfidential "ab".toList [⟨ConfType.contact, []⟩] = "ab".toList := by
  decide

/-- C6: in the confidential driver variant's catch block, the two channel closes are
awaited with no try/catch wrapper: when the main-channel close throws, the
audit-channel close is never attempted and the failure propagates, contradicting the
claim; the PII variants wrap each close and swallow close failures. -/
theorem c6_error_close_eval :
    confidentialCatchCleanup (Except.error ()) (Except.ok ())
      = ⟨true, false, true⟩ ∧
    piiCatchCleanup (Except.ok ()) (Except.error ()) (Except.error ())
      = ⟨true, true, false⟩ := by
  decide

/-- C2: if every Detector call fails, both fail-open adapters return the empty span
list on every input, the incremental sessions run to completion (the completion line is
the last audit write), the main-channel output is exactly the generator deltas
concatenated in order, and the audit channel never writes a found line. -/
theorem c2_fail_open (op : List Char → Except Unit (List PiiItem))
    (oc : List Char → Except Unit (List ConfidentialItem))
    (hp : ∀ t, op t = Except.error ()) (hc : ∀ t, oc t = Except.error ())
    (deltas : List (List Char)) :
    (∀ t, detectPII op t = []) ∧ (∀ t, detectConfidential oc t = []) ∧
    mainFlat (piiSession op deltas) = deltas.flatten ∧
    mainFlat (confSession oc deltas) = deltas.flatten ∧
    noFoundClaim (piiSession op deltas).auditOut = true ∧
    noFoundClaim (confSession oc deltas).auditOut = true ∧
    (piiSession op deltas).auditOut.getLast? = some AuditLine.complete ∧
    (confSession oc deltas).auditOut.getLast? = some AuditLine.complete := by
  have hdp : ∀ t, detectPII op t = [] := fun t => by simp [detectPII, hp t]
  have hdc : ∀ t, detectConfidential oc t = [] := fun t => by
    simp [detectConfidential, hc t]
  have h1 := runIncrSession_detect_nil 64 200 (detectPII op) redactPII hdp deltas
  have h2 := runIncrSession_detect_nil 64 200 (detectConfidential oc) redactConfidential
    hdc deltas
  exact ⟨hdp, hdc, h1.1, h2.1, h1.2.1, h2.2.1, h1.2.2, h2.2.2⟩

/-- C2 (witness): the fail-open theorem applied to concretely failing oracles and a
one-delta input. -/
theorem c2_fail_open_witness :
    mainFlat (piiSession failingPiiOracle ["hi".toList])
        = (["hi".toList] : List (List Char)).flatten ∧
    mainFlat (confSession failingConfOracle ["hi".toList])
        = (["hi".toList] : List (List Char)).flatten ∧
    noFoundClaim (piiSession failingPiiOracle ["hi".toList]).auditOut = true ∧
    noFoundClaim (confSession failingConfOracle ["hi".toList]).auditOut = true := by
  have h := c2_fail_open failingPiiOracle failingConfOracle (fun _ => rfl) (fun _ => rfl)
    ["hi".toList]
  exact ⟨h.2.2.1, h.2.2.2.1, h.2.2.2.2.1, h.2.2.2.2.2.1⟩

/-- C7 (counterexample): the final draining flush does not clear pendingBuffer.  With
the single two-character delta "hi" the drain flush runs (the final-check line is
written) yet the session ends with pendingBuffer still holding "hi", so the buffer is
not cleared exactly once per flush cycle in the draining case. -/
theorem c7_drain_no_clear_counterexample :
    (piiSession failingPiiOracle ["hi".toList]).pendingBuffer = "hi".toList ∧
    "hi".toList ≠ ([] : List Char) ∧
    AuditLine.finalCheck 2 ∈ (piiSession failingPiiOracle ["hi".toList]).auditOut := by
  decide

/-- C7 (amended): every threshold-triggered flush of the streaming loop clears
pendingBuffer to empty immediately after the flush is dispatched, in the incremental
drivers and the part_001 driver alike; the final draining flush leaves the buffer
variable unreset (the session ends without reading it again). -/
theorem c7_threshold_flush_clears_amended {ι κ : Type} (N thr : Nat)
    (det : List Char → List ι) (rf : List Char → List ι → List Char)
    (st : DriverState) (d : List Char)
    (det2 : List Char → List κ) (rf2 : List Char → List κ → List Char)
    (st2 : DriverState) (d2 : List Char)
    (h : thr ≤ (st.pendingBuffer ++ d).length)
    (h2 : flushPolicySpec (st2.pendingBuffer ++ d2) = true) :
    (streamStep N thr det rf st d).pendingBuffer = [] ∧
    (part001Step det2 rf2 st2 d2).pendingBuffer = [] := by
  constructor
  · simp only [streamStep]
    rw [if_pos h]
  · have hcode : (decide (200 ≤ (st2.pendingBuffer ++ d2).length)
        || ((execSentenceEnd (st2.pendingBuffer ++ d2)).isSome
            && decide (80 ≤ (st2.pendingBuffer ++ d2).length))) = true := by
      rw [part001_policy_eq]
      exact h2
    simp only [part001Step]
    rw [if_pos hcode]

/-- C7 (amended, witness): both flush loops clear the buffer after a 200-character
delta trips the size threshold. -/
theorem c7_threshold_flush_clears_amended_witness :
    (streamStep 64 200 noSpanDetector redactPII initState
        (List.replicate 200 'a')).pendingBuffer = [] ∧
    (part001Step noSpanDetector redactPII initState
        (List.replicate 200 'a')).pendingBuffer = [] :=
  c7_threshold_flush_clears_amended 64 200 noSpanDetector redactPII initState
    (List.replicate 200 'a') noSpanDetector redactPII initState (List.replicate 200 'a')
    (by decide) (by decide)

/-- C8: the carry tail never exceeds the session's fixed overlap window: it starts
empty, and at every point of every session — after any prefix of the delta stream (the
delta list is universally quantified, so the streaming-loop state after each delta is
covered), and after the draining flush — its length is at most N for the incremental
drivers and at most 32 for the part_001 driver. -/
theorem c8_carry_tail_bound {ι κ : Type} (N thr : Nat) (det : List Char → List ι)
    (rf : List Char → List ι → List Char) (det2 : List Char → List κ)
    (rf2 : List Char → List κ → List Char) (deltas deltas2 : List (List Char)) :
    (runIncr N thr det rf deltas).carryTail.length ≤ N ∧
    (runIncrSession N thr det rf deltas).carryTail.length ≤ N ∧
    (part001Run det2 rf2 deltas2).carryTail.length ≤ 32 ∧
    (part001Session det2 rf2 deltas2).carryTail.length ≤ 32 :=
  ⟨runIncr_carry_le N thr det rf deltas, runIncrSession_carry_le N thr det rf deltas,
   part001Run_carry_le det2 rf2 deltas2, part001Session_carry_le det2 rf2 deltas2⟩

/-- C9: after every appended delta, the part_001 accumulator flushes exactly when the
whole current buffer has at least 200 characters, or at least 80 characters and a
sentence terminator (end-of-sentence punctuation followed by whitespace) anywhere in
the buffer: the buffer resets precisely under that condition and the main channel
receives exactly one write per flush. -/
theorem c9_flush_policy {ι : Type} (det : List Char → List ι)
    (rf : List Char → List ι → List Char) (st : DriverState) (d : List Char) :
    (part001Step det rf st d).pendingBuffer
        = (if flushPolicySpec (st.pendingBuffer ++ d) then [] else st.pendingBuffer ++ d) ∧
    (part001Step det rf st d).mainOut.length
        = (if flushPolicySpec (st.pendingBuffer ++ d) then st.mainOut.length + 1
           else st.mainOut.length) := by
  by_cases hf : flushPolicySpec (st.pendingBuffer ++ d) = true
  · have hcode : (decide (200 ≤ (st.pendingBuffer ++ d).length)
        || ((execSentenceEnd (st.pendingBuffer ++ d)).isSome
            && decide (80 ≤ (st.pendingBuffer ++ d).length))) = true := by
      rw [part001_policy_eq]
      exact hf
    simp only [part001Step]
    rw [if_pos hcode, if_pos hf, if_pos hf]
    exact ⟨rfl, by simp [validateAndFlushFull]⟩
  · rw [Bool.not_eq_true] at hf
    have hcode : ¬((decide (200 ≤ (st.pendingBuffer ++ d).length)
        || ((execSentenceEnd (st.pendingBuffer ++ d)).isSome
            && decide (80 ≤ (st.pendingBuffer ++ d).length))) = true) := by
      rw [part001_policy_eq, hf]
      exact Bool.false_ne_true
    simp only [part001Step]
    rw [if_neg hcode, if_neg (by rw [hf]; exact Bool.false_ne_true),
      if_neg (by rw [hf]; exact Bool.false_ne_true)]
    exact ⟨rfl, rfl⟩

/-- C10: when a flush's sanitized result is no longer than the current carry tail, the
incremental drivers write nothing to the main channel and no emitted line to the audit
channel, while still writing the checking line and the found or none-found line. -/
theorem c10_no_emit_when_shrunk {ι : Type} (N : Nat) (det : List Char → List ι)
    (rf : List Char → List ι → List Char) (st : DriverState) (buffer : List Char)
    (h : (sanitizedOf det rf st.carryTail buffer).length ≤ st.carryTail.length) :
    (validateAndFlush N det rf st buffer).mainOut = st.mainOut ∧
    (validateAndFlush N det rf st buffer).auditOut
        = st.auditOut ++ [AuditLine.checking (st.carryTail ++ buffer).length,
            foundLineOf (det (st.carryTail ++ buffer))] := by
  have hdrop : (sanitizedOf det rf st.carryTail buffer).drop st.carryTail.length = [] := by
    apply List.eq_nil_of_length_eq_zero
    rw [List.length_drop]
    omega
  simp [validateAndFlush, hdrop]

/-- C10 (witness): a detector reporting one 31-character span against a 30-character
carry tail and a 1-character buffer; redaction shrinks the text to a 16-character
marker, the incremental suffix is empty, and the flush emits nothing. -/
theorem c10_no_emit_when_shrunk_witness :
    (validateAndFlush 64 shrinkDetector redactPII shrinkState ['a']).mainOut
        = shrinkState.mainOut ∧
    (validateAndFlush 64 shrinkDetector redactPII shrinkState ['a']).auditOut
        = shrinkState.auditOut
            ++ [AuditLine.checking (shrinkState.carryTail ++ ['a']).length,
                foundLineOf (shrinkDetector (shrinkState.carryTail ++ ['a']))] :=
  c10_no_emit_when_shrunk 64 shrinkDetector redactPII shrinkState ['a'] (by decide)

end Guardrails
